import Mathlib

/-!
Shallow embedding of the Open-DCAs dashboard logic.

The embedded code comes from two files:
* the Jupiter DCA API module (`JupiterDCAAPI`): `withRetry`, `getCurrentPrice`,
  `convertDCAAccount`, `getDCAAccounts` (its pure categorization / position /
  chart-data core) and `calculateSummaryFromRawAccounts`;
* the dashboard component (`DCADashboard`): the `fetchData` poll-cycle state
  transition.

Modelling conventions:
* `BN` integer amounts become `Int`; JavaScript number arithmetic on the
  decimal-scaled values becomes exact rational arithmetic over `ℚ`
  (`x / Math.pow(10, 6)` becomes `(x : ℚ) / 10 ^ 6`);
* `Math.round` (round half toward positive infinity) becomes `jsRound`;
* Solana `PublicKey` values become `String`s compared for equality
  (`PublicKey.equals` is mint-string equality);
* asynchronous fallible operations become `Except`-valued functions; the
  outcome of the i-th attempt of a retried operation is supplied as a
  function `Nat → Except ε α`;
* `setTimeout` delays are recorded in a trace rather than performed.
-/

/-- Mint address of the LOGOS token, from the source. -/
def LOGOS_MINT : String := "HJUfqXoYjC653f2p33i84zdCC3jc4EuVnbruSe5kpump"

/-- Mint address of the CHAOS token, from the source. -/
def CHAOS_MINT : String := "8SgNwESovnbG1oNEaPVhg6CR9mTMSK7jPvcYRe3wpump"

/-- JavaScript `Math.round`: nearest integer, ties toward positive infinity. -/
def jsRound (q : ℚ) : ℤ := ⌊q + 1 / 2⌋

/-- The `account` payload of a raw DCA account (interface `DCAAccountType.account`).
`BN` fields are `Int`, `PublicKey` fields are `String`. -/
structure DCAAccountData where
  user : String
  inputMint : String
  outputMint : String
  idx : Int
  nextCycleAt : Int
  inDeposited : Int
  inWithdrawn : Int
  outWithdrawn : Int
  inUsed : Int
  inAmountPerCycle : Int
  cycleFrequency : Int
  minOutAmount : Option Int
  maxOutAmount : Option Int
deriving DecidableEq, Repr

/-- A raw DCA account as returned by the SDK (interface `DCAAccountType`). -/
structure DCAAccountType where
  publicKey : String
  account : DCAAccountData
deriving DecidableEq, Repr

/-- Position direction, the `"BUY" | "SELL"` union in the source. -/
inductive Direction where
  | BUY
  | SELL
deriving DecidableEq, Repr

/-- The display-ready `Position` record (`types/dca`). `estimatedOutput` is the
optional field: `none` models the `undefined` branch. -/
structure Position where
  id : String
  token : String
  type : Direction
  inputToken : String
  outputToken : String
  inputAmount : ℚ
  totalAmount : ℚ
  amountPerCycle : ℚ
  remainingCycles : Int
  cycleFrequency : Int
  lastUpdate : Int
  publicKey : String
  targetPrice : ℚ
  currentPrice : ℚ
  priceToken : String
  estimatedOutput : Option ℚ
deriving DecidableEq, Repr

/-- The per-token `TokenSummary` record (`types/dca`). -/
structure TokenSummary where
  buyOrders : Nat
  sellOrders : Nat
  buyVolume : ℚ
  sellVolume : ℚ
  buyVolumeUSDC : ℤ
  sellVolumeUSDC : ℤ
deriving DecidableEq, Repr

/-- One `ChartDataPoint` (`types/dca`). -/
structure ChartDataPoint where
  timestamp : Int
  buyVolume : ℚ
  sellVolume : ℚ
  buyOrders : Nat
  sellOrders : Nat
deriving DecidableEq, Repr

/-- `JupiterDCAAPI.convertDCAAccount`: converts an SDK account record into a
`Position`, given a price, a tracked-token symbol and a direction. -/
def convertDCAAccount (account : DCAAccountType) (price : ℚ) (token : String)
    (ty : Direction) : Position :=
  { id := account.publicKey
    token := token
    type := ty
    inputToken := if ty = Direction.BUY then "USDC" else token
    outputToken := if ty = Direction.BUY then token else "USDC"
    inputAmount := (account.account.inAmountPerCycle : ℚ) / 10 ^ 6
    totalAmount := ((account.account.inDeposited - account.account.inWithdrawn : Int) : ℚ) / 10 ^ 6
    amountPerCycle := (account.account.inAmountPerCycle : ℚ) / 10 ^ 6
    remainingCycles := account.account.cycleFrequency
    cycleFrequency := account.account.cycleFrequency
    lastUpdate := account.account.nextCycleAt * 1000
    publicKey := account.publicKey
    targetPrice := ((account.account.minOutAmount.getD 0 : Int) : ℚ) / 10 ^ 6
    currentPrice := price
    priceToken := "USDC"
    estimatedOutput :=
      if ty = Direction.SELL then
        some (((account.account.inAmountPerCycle : ℚ) / 10 ^ 6) * price)
      else none }

/-- The `accountsByToken` categorization record built inside `getDCAAccounts`. -/
structure AccountsByToken where
  logosBuys : List DCAAccountType
  logosSells : List DCAAccountType
  chaosBuys : List DCAAccountType
  chaosSells : List DCAAccountType
deriving DecidableEq, Repr

/-- Step 2 of `getDCAAccounts`: partition all fetched accounts by tracked token
and direction (`accountsByToken`). -/
def categorize (allAccounts : List DCAAccountType) : AccountsByToken :=
  { logosBuys := allAccounts.filter fun acc => acc.account.outputMint = LOGOS_MINT
    logosSells := allAccounts.filter fun acc => acc.account.inputMint = LOGOS_MINT
    chaosBuys := allAccounts.filter fun acc => acc.account.outputMint = CHAOS_MINT
    chaosSells := allAccounts.filter fun acc => acc.account.inputMint = CHAOS_MINT }

/-- The `prices` argument of `calculateSummaryFromRawAccounts`. -/
structure Prices where
  LOGOS : ℚ
  CHAOS : ℚ
deriving DecidableEq, Repr

/-- The `Record<string, TokenSummary>` returned by
`calculateSummaryFromRawAccounts`; its keys are exactly LOGOS and CHAOS. -/
structure SummaryRecord where
  LOGOS : TokenSummary
  CHAOS : TokenSummary
deriving DecidableEq, Repr

/-- `JupiterDCAAPI.calculateSummaryFromRawAccounts`: per-token order counts,
native volumes, and rounded quote-currency volumes. The `reduce` calls become
`List.foldl` with initial accumulator 0. -/
def calculateSummaryFromRawAccounts (accountsByToken : AccountsByToken)
    (prices : Prices) : SummaryRecord :=
  let logosSellVolumeUSDC : ℤ :=
    jsRound (accountsByToken.logosSells.foldl
      (fun sum acc =>
        sum + (((acc.account.inDeposited - acc.account.inWithdrawn : Int) : ℚ) / 10 ^ 6)
          * prices.LOGOS)
      0)
  { LOGOS :=
      { buyOrders := accountsByToken.logosBuys.length
        sellOrders := accountsByToken.logosSells.length
        buyVolume := accountsByToken.logosBuys.foldl
          (fun sum acc =>
            sum + ((acc.account.inDeposited - acc.account.inWithdrawn : Int) : ℚ) / 10 ^ 6)
          0
        sellVolume := accountsByToken.logosSells.foldl
          (fun sum acc =>
            sum + ((acc.account.inDeposited - acc.account.inWithdrawn : Int) : ℚ) / 10 ^ 6)
          0
        buyVolumeUSDC := jsRound (accountsByToken.logosBuys.foldl
          (fun sum acc => sum + (acc.account.inAmountPerCycle : ℚ) / 10 ^ 6) 0)
        sellVolumeUSDC := logosSellVolumeUSDC }
    CHAOS :=
      { buyOrders := accountsByToken.chaosBuys.length
        sellOrders := accountsByToken.chaosSells.length
        buyVolume := accountsByToken.chaosBuys.foldl
          (fun sum acc =>
            sum + ((acc.account.inDeposited - acc.account.inWithdrawn : Int) : ℚ) / 10 ^ 6)
          0
        sellVolume := accountsByToken.chaosSells.foldl
          (fun sum acc =>
            sum + ((acc.account.inDeposited - acc.account.inWithdrawn : Int) : ℚ) / 10 ^ 6)
          0
        buyVolumeUSDC := jsRound (accountsByToken.chaosBuys.foldl
          (fun sum acc => sum + (acc.account.inAmountPerCycle : ℚ) / 10 ^ 6) 0)
        sellVolumeUSDC := jsRound (accountsByToken.chaosSells.foldl
          (fun sum acc =>
            sum + (((acc.account.inDeposited - acc.account.inWithdrawn : Int) : ℚ) / 10 ^ 6)
              * prices.CHAOS)
          0) } }

/-- The `chartData` record built at the end of `getDCAAccounts`. -/
structure ChartRecord where
  LOGOS : List ChartDataPoint
  CHAOS : List ChartDataPoint
deriving DecidableEq, Repr

/-- The value returned by `getDCAAccounts`. -/
structure DCAResult where
  positions : List Position
  summary : SummaryRecord
  chartData : ChartRecord
deriving DecidableEq, Repr

/-- The pure core of `JupiterDCAAPI.getDCAAccounts` after the accounts and the
two prices have been fetched: categorization, summary, position conversion
(each position first built with price 0, then re-mapped with the live
`currentPrice`), and per-token chart data stamped with `now` (`Date.now()`). -/
def getDCAAccountsResult (allAccounts : List DCAAccountType)
    (logosPrice chaosPrice : ℚ) (now : Int) : DCAResult :=
  let accountsByToken := categorize allAccounts
  let summary := calculateSummaryFromRawAccounts accountsByToken
    { LOGOS := logosPrice, CHAOS := chaosPrice }
  let positions :=
    (accountsByToken.logosBuys.map fun acc =>
      convertDCAAccount acc 0 "LOGOS" Direction.BUY) ++
    (accountsByToken.logosSells.map fun acc =>
      convertDCAAccount acc 0 "LOGOS" Direction.SELL) ++
    (accountsByToken.chaosBuys.map fun acc =>
      convertDCAAccount acc 0 "CHAOS" Direction.BUY) ++
    (accountsByToken.chaosSells.map fun acc =>
      convertDCAAccount acc 0 "CHAOS" Direction.SELL)
  let positionsWithPrices := positions.map fun pos =>
    { pos with currentPrice := if pos.token = "LOGOS" then logosPrice else chaosPrice }
  let chartData : ChartRecord :=
    { LOGOS := [{ timestamp := now
                  buyVolume := summary.LOGOS.buyVolume
                  sellVolume := summary.LOGOS.sellVolume
                  buyOrders := summary.LOGOS.buyOrders
                  sellOrders := summary.LOGOS.sellOrders }]
      CHAOS := [{ timestamp := now
                  buyVolume := summary.CHAOS.buyVolume
                  sellVolume := summary.CHAOS.sellVolume
                  buyOrders := summary.CHAOS.buyOrders
                  sellOrders := summary.CHAOS.sellOrders }] }
  { positions := positionsWithPrices
    summary := summary
    chartData := chartData }

/-- A tracked token; the observed configuration tracks exactly LOGOS and CHAOS. -/
inductive Token where
  | LOGOS
  | CHAOS
deriving DecidableEq, Repr

/-- The mint id of a tracked token. -/
def Token.mint : Token → String
  | Token.LOGOS => LOGOS_MINT
  | Token.CHAOS => CHAOS_MINT

/-- The display symbol of a tracked token. -/
def Token.symbol : Token → String
  | Token.LOGOS => "LOGOS"
  | Token.CHAOS => "CHAOS"

/-- Look a tracked token up in a summary record. -/
def SummaryRecord.get (r : SummaryRecord) : Token → TokenSummary
  | Token.LOGOS => r.LOGOS
  | Token.CHAOS => r.CHAOS

/-- The price passed for a tracked token. -/
def Prices.get (p : Prices) : Token → ℚ
  | Token.LOGOS => p.LOGOS
  | Token.CHAOS => p.CHAOS

/-- Observable trace of one `withRetry` run: the final outcome (`Except`), the
list of `setTimeout` delays performed (in milliseconds, in order), and the
number of attempts made. The error payload is an `Option` because `lastError`
starts out undefined (it is `none` only if the loop body never ran). -/
structure RetryTrace (ε α : Type) where
  result : Except (Option ε) α
  delays : List Nat
  attempts : Nat
deriving Repr

/-- Loop body of `withRetry`: `i` is the current loop index, `fuel` the number
of remaining iterations (`maxRetries - i`), `lastError` the error saved so
far, `delays` the waits performed so far. On failure of attempt `i` the code
waits `1000 * (i + 1)` ms and continues; when the loop ends it throws
`lastError`. -/
def withRetryAux (op : Nat → Except ε α) : Nat → Nat → Option ε → List Nat →
    RetryTrace ε α
  | 0, i, lastError, delays => ⟨Except.error lastError, delays, i⟩
  | fuel + 1, i, lastError, delays =>
    match op i with
    | Except.ok a => ⟨Except.ok a, delays, i + 1⟩
    | Except.error e =>
      let _ := lastError
      withRetryAux op fuel (i + 1) (some e) (delays ++ [1000 * (i + 1)])

/-- `JupiterDCAAPI.withRetry`: run `op` up to `maxRetries` times (the source
default is `maxRetries = 3`), waiting `1000 * (i + 1)` ms after the failure of
the attempt at loop index `i`, and throw the last error when every attempt
failed. The i-th attempt's outcome is `op i`. -/
def withRetry (op : Nat → Except ε α) (maxRetries : Nat) : RetryTrace ε α :=
  withRetryAux op maxRetries 0 none []

/-- The operation `getDCAAccounts` wraps in `withRetry`: call `dca.getAll()`
(whose i-th response is modelled as `resp i`, `none` standing for an
absent/undefined result) and throw `'No accounts returned'` when the result is
missing or empty. -/
def fetchAccountsOp (resp : Nat → Option (List DCAAccountType)) (i : Nat) :
    Except String (List DCAAccountType) :=
  match resp i with
  | none => Except.error "No accounts returned"
  | some accounts =>
    if accounts.length = 0 then Except.error "No accounts returned"
    else Except.ok accounts

/-- The value `getCurrentPrice` resolves with. -/
structure PriceResult where
  price : ℚ
  mint : String
deriving DecidableEq, Repr

/-- `JupiterDCAAPI.getCurrentPrice`, as a function of the HTTP outcome:
`Except.error` models the fetch / json call throwing (caught, price 0);
`Except.ok none` models a response whose `data[mint].price` is absent
(`|| 0` yields 0); `Except.ok (some p)` models a present price `p`. The
function is total: no outcome propagates a failure. -/
def getCurrentPrice (mint : String) (response : Except Unit (Option ℚ)) :
    PriceResult :=
  match response with
  | Except.error _ => { price := 0, mint := mint }
  | Except.ok data => { price := data.getD 0, mint := mint }

/-- The dashboard component's state: the six `useState` cells that `fetchData`
touches. The initially-empty `Record` states are modelled with `Option`
(`none` = the initial `{}`). -/
structure DashboardState where
  chartData : Option ChartRecord
  summaryData : Option SummaryRecord
  positions : List Position
  loading : Bool
  error : Option String
  lastUpdate : Int
deriving Repr

/-- `DCADashboard.fetchData` as a state transition: given the outcome of
`jupiterDCA.getDCAAccounts()` (the `Invalid data received` throw is part of
the `Except.error` case) and the current time, return the new state and the
number of follow-up `setTimeout(fetchData, 2000)` retries scheduled. The
function first sets `loading := true` and `error := none`; on success it
stores the fetched snapshot, stamps `lastUpdate`, and clears `loading`; on
failure it sets the error message and schedules one retry. -/
def fetchData (s : DashboardState) (result : Except String DCAResult)
    (now : Int) : DashboardState × Nat :=
  let s1 := { s with loading := true, error := none }
  match result with
  | Except.ok data =>
    ({ s1 with
        positions := data.positions
        summaryData := some data.summary
        chartData := some data.chartData
        lastUpdate := now
        loading := false }, 0)
  | Except.error _ =>
    ({ s1 with error := some "Failed to fetch data. Retrying..." }, 1)

/-- Sum of buy and sell order counts over both tracked tokens. -/
def totalOrders (r : SummaryRecord) : Nat :=
  r.LOGOS.buyOrders + r.LOGOS.sellOrders + r.CHAOS.buyOrders + r.CHAOS.sellOrders

/-- An account whose input-token mint or output-token mint equals at least one
tracked token's mint. -/
def matchesTrackedMint (a : DCAAccountType) : Bool :=
  decide (a.account.inputMint = LOGOS_MINT ∨ a.account.inputMint = CHAOS_MINT) ||
  decide (a.account.outputMint = LOGOS_MINT ∨ a.account.outputMint = CHAOS_MINT)

/-- Folding addition of `f` over a list from `init` (the shape of the source's
`reduce((sum, acc) => sum + f(acc), 0)`) equals `init` plus the sum of the
mapped list. -/
theorem foldl_add_eq_add_sum {α : Type} (f : α → ℚ) (l : List α) (init : ℚ) :
    l.foldl (fun sum a => sum + f a) init = init + (l.map f).sum := by
  induction l generalizing init with
  | nil => simp
  | cons x xs ih => simp [ih, add_assoc]

/-- Summing a map that is constantly zero yields zero. -/
theorem sum_map_zero {α : Type} (l : List α) : (l.map fun _ => (0 : ℚ)).sum = 0 := by
  induction l with
  | nil => simp
  | cons x xs ih => simp [ih]

/-- C1: for every input list of raw accounts and every tracked token `T`, the
summary for `T` has `buyOrders` equal to the number of accounts whose
output-token mint equals `T`'s mint, `sellOrders` equal to the number of
accounts whose input-token mint equals `T`'s mint, and `buyVolume`
(resp. `sellVolume`) equal to the sum over the buy (resp. sell) partition of
`(inDeposited - inWithdrawn) / 10^6`. -/
theorem summary_partition_counts_and_volumes (allAccounts : List DCAAccountType)
    (logosPrice chaosPrice : ℚ) (now : Int) (T : Token) :
    ((getDCAAccountsResult allAccounts logosPrice chaosPrice now).summary.get T).buyOrders
        = allAccounts.countP (fun a => a.account.outputMint = T.mint) ∧
    ((getDCAAccountsResult allAccounts logosPrice chaosPrice now).summary.get T).sellOrders
        = allAccounts.countP (fun a => a.account.inputMint = T.mint) ∧
    ((getDCAAccountsResult allAccounts logosPrice chaosPrice now).summary.get T).buyVolume
        = ((allAccounts.filter fun a => a.account.outputMint = T.mint).map
            (fun a => ((a.account.inDeposited - a.account.inWithdrawn : Int) : ℚ) / 10 ^ 6)).sum ∧
    ((getDCAAccountsResult allAccounts logosPrice chaosPrice now).summary.get T).sellVolume
        = ((allAccounts.filter fun a => a.account.inputMint = T.mint).map
            (fun a => ((a.account.inDeposited - a.account.inWithdrawn : Int) : ℚ) / 10 ^ 6)).sum := by
  cases T <;>
    simp [getDCAAccountsResult, calculateSummaryFromRawAccounts, SummaryRecord.get,
      Token.mint, categorize, foldl_add_eq_add_sum, List.countP_eq_length_filter]

/-- C2: for every tracked token `T`, `buyVolumeUSDC` equals the
round-to-nearest of the sum over the buy partition of `inAmountPerCycle`
converted to decimal units, and does not depend on either price;
`sellVolumeUSDC` equals the round-to-nearest of the sum over the sell
partition of `(native volume per account) × T's price`, with rounding applied
once, after summing. -/
theorem summary_usdc_volumes (allAccounts : List DCAAccountType)
    (logosPrice chaosPrice logosPrice' chaosPrice' : ℚ) (now now' : Int) (T : Token) :
    ((getDCAAccountsResult allAccounts logosPrice chaosPrice now).summary.get T).buyVolumeUSDC
        = jsRound (((allAccounts.filter fun a => a.account.outputMint = T.mint).map
            (fun a => (a.account.inAmountPerCycle : ℚ) / 10 ^ 6)).sum) ∧
    ((getDCAAccountsResult allAccounts logosPrice chaosPrice now).summary.get T).buyVolumeUSDC
        = ((getDCAAccountsResult allAccounts logosPrice' chaosPrice' now').summary.get T).buyVolumeUSDC ∧
    ((getDCAAccountsResult allAccounts logosPrice chaosPrice now).summary.get T).sellVolumeUSDC
        = jsRound (((allAccounts.filter fun a => a.account.inputMint = T.mint).map
            (fun a => (((a.account.inDeposited - a.account.inWithdrawn : Int) : ℚ) / 10 ^ 6)
              * (Prices.get { LOGOS := logosPrice, CHAOS := chaosPrice } T))).sum) := by
  cases T <;>
    simp [getDCAAccountsResult, calculateSummaryFromRawAccounts, SummaryRecord.get,
      Token.mint, Prices.get, categorize, foldl_add_eq_add_sum]

/-- C10: when a fetch cycle fails, the previously published snapshot state is
unchanged — `positions`, `summaryData`, `chartData` and `lastUpdate` keep
their values — while the error message is set to a non-null value, the
loading flag is left set, and exactly one follow-up retry is scheduled. -/
theorem fetch_failure_preserves_snapshot (s : DashboardState) (e : String) (now : Int) :
    (fetchData s (Except.error e) now).1.positions = s.positions ∧
    (fetchData s (Except.error e) now).1.summaryData = s.summaryData ∧
    (fetchData s (Except.error e) now).1.chartData = s.chartData ∧
    (fetchData s (Except.error e) now).1.lastUpdate = s.lastUpdate ∧
    (fetchData s (Except.error e) now).1.error = some "Failed to fetch data. Retrying..." ∧
    (fetchData s (Except.error e) now).1.loading = true ∧
    (fetchData s (Except.error e) now).2 = 1 := by
  simp [fetchData]

/-- A concrete SELL-side raw account: it sells LOGOS (input mint = LOGOS) into
USDC, with 2,000,000 base units deposited, none withdrawn, and a per-cycle
amount of 2,000,000 base units (2.0 in decimal units). -/
def sellAccountExample : DCAAccountType :=
  { publicKey := "SellAcctPubkey11111111111111111111111111111"
    account :=
      { user := "UserPubkey111111111111111111111111111111111"
        inputMint := LOGOS_MINT
        outputMint := "EPjFWdd5AufqSSqeM2qN1xzybapC8G4wEGGkZwyTDt1v"
        idx := 0
        nextCycleAt := 1700000000
        inDeposited := 2000000
        inWithdrawn := 0
        outWithdrawn := 0
        inUsed := 0
        inAmountPerCycle := 2000000
        cycleFrequency := 60
        minOutAmount := none
        maxOutAmount := none } }

/-- C3: with a LOGOS price of 3, the single published position for
`sellAccountExample` has direction SELL, `currentPrice` 3 and
`amountPerCycle` 2, yet its `estimatedOutput` is `some 0` — the value computed
from the hardcoded price 0 that `getDCAAccounts` passes to
`convertDCAAccount` — instead of `amountPerCycle × currentPrice = 6`. The
remapping step updates only `currentPrice`, so the published
`estimatedOutput` is stale whenever the live price is non-zero. -/
theorem estimatedOutput_stale_price :
    (getDCAAccountsResult [sellAccountExample] 3 0 0).positions.map Position.type
        = [Direction.SELL] ∧
    (getDCAAccountsResult [sellAccountExample] 3 0 0).positions.map Position.currentPrice
        = [3] ∧
    (getDCAAccountsResult [sellAccountExample] 3 0 0).positions.map Position.amountPerCycle
        = [2] ∧
    (getDCAAccountsResult [sellAccountExample] 3 0 0).positions.map Position.estimatedOutput
        = [some 0] ∧
    (0 : ℚ) ≠ 2 * 3 := by
  refine ⟨?_, ?_, ?_, ?_, by norm_num⟩
  all_goals simp [getDCAAccountsResult, categorize, convertDCAAccount, sellAccountExample,
    LOGOS_MINT, CHAOS_MINT]
  all_goals norm_num

/-- C4: every position produced by the aggregation with direction BUY has
`inputToken = "USDC"` and `outputToken` equal to the tracked-token symbol
(the position's `token` field), and every position with direction SELL has
`inputToken` equal to the tracked-token symbol and `outputToken = "USDC"`. -/
theorem position_tokens_determined (allAccounts : List DCAAccountType)
    (logosPrice chaosPrice : ℚ) (now : Int) (p : Position)
    (hp : p ∈ (getDCAAccountsResult allAccounts logosPrice chaosPrice now).positions) :
    (p.type = Direction.BUY → p.inputToken = "USDC" ∧ p.outputToken = p.token) ∧
    (p.type = Direction.SELL → p.inputToken = p.token ∧ p.outputToken = "USDC") := by
  simp only [getDCAAccountsResult, List.map_append, List.mem_append, List.mem_map,
    List.map_map] at hp
  rcases hp with ((⟨a, _, rfl⟩ | ⟨a, _, rfl⟩) | ⟨a, _, rfl⟩) | ⟨a, _, rfl⟩ <;>
    simp [convertDCAAccount, Function.comp]

/-- The position for `sellAccountExample` as published by the aggregation with
a LOGOS price of 3: the conversion runs with price 0 and `currentPrice` is
then overwritten with the live price. -/
def publishedSellPosition : Position :=
  { convertDCAAccount sellAccountExample 0 "LOGOS" Direction.SELL with currentPrice := 3 }

/-- Witness for C4 at a concrete input: the published SELL position for
`sellAccountExample` has `inputToken` equal to its tracked-token symbol and
`outputToken = "USDC"`. -/
theorem position_tokens_determined_witness :
    publishedSellPosition.inputToken = publishedSellPosition.token ∧
    publishedSellPosition.outputToken = "USDC" :=
  (position_tokens_determined [sellAccountExample] 3 0 0 publishedSellPosition
    (by simp [getDCAAccountsResult, categorize, publishedSellPosition, sellAccountExample,
      LOGOS_MINT, CHAOS_MINT, convertDCAAccount])).2 rfl

/-- C9: `convertDCAAccount` sets both `remainingCycles` and `cycleFrequency`
to the raw account's `cycleFrequency` field, and consequently every position
produced by the aggregation has `remainingCycles` equal to `cycleFrequency`. -/
theorem remainingCycles_eq_cycleFrequency (account : DCAAccountType) (price : ℚ)
    (token : String) (ty : Direction) (allAccounts : List DCAAccountType)
    (logosPrice chaosPrice : ℚ) (now : Int) :
    ((convertDCAAccount account price token ty).remainingCycles
        = account.account.cycleFrequency ∧
      (convertDCAAccount account price token ty).cycleFrequency
        = account.account.cycleFrequency) ∧
    (∀ p ∈ (getDCAAccountsResult allAccounts logosPrice chaosPrice now).positions,
      p.remainingCycles = p.cycleFrequency) := by
  refine ⟨⟨rfl, rfl⟩, ?_⟩
  intro p hp
  simp only [getDCAAccountsResult, List.map_append, List.mem_append, List.mem_map,
    List.map_map] at hp
  rcases hp with ((⟨a, _, rfl⟩ | ⟨a, _, rfl⟩) | ⟨a, _, rfl⟩) | ⟨a, _, rfl⟩ <;>
    simp [convertDCAAccount, Function.comp]

/-- Witness for C9 at a concrete input: the published position for
`sellAccountExample` has `remainingCycles` equal to `cycleFrequency`. -/
theorem remainingCycles_eq_cycleFrequency_witness :
    ({ convertDCAAccount sellAccountExample 0 "LOGOS" Direction.SELL with
        currentPrice := 3 } : Position).remainingCycles
      = ({ convertDCAAccount sellAccountExample 0 "LOGOS" Direction.SELL with
        currentPrice := 3 } : Position).cycleFrequency :=
  (remainingCycles_eq_cycleFrequency sellAccountExample 0 "LOGOS" Direction.SELL
    [sellAccountExample] 3 0 0).2
    ({ convertDCAAccount sellAccountExample 0 "LOGOS" Direction.SELL with
        currentPrice := 3 })
    (by simp [getDCAAccountsResult, categorize, sellAccountExample,
      LOGOS_MINT, CHAOS_MINT, convertDCAAccount])

/-- C6: `withRetry` at its source default `maxRetries = 3` makes at most 3
attempts; the delay recorded at trace position `i` — the wait between the
failed attempt at loop index `i` and the next attempt, i.e. the delay before
the attempt at loop index `i + 1` — equals `(i + 1) × 1000` ms, so the delay
before the attempt at loop index `i` is `i × 1` second; and when all three
attempts fail, the error of the last attempt is propagated to the caller. -/
theorem withRetry_linear_backoff {ε α : Type} (op : Nat → Except ε α) :
    (withRetry op 3).attempts ≤ 3 ∧
    (∀ i, ∀ h : i < (withRetry op 3).delays.length,
      (withRetry op 3).delays.get ⟨i, h⟩ = 1000 * (i + 1)) ∧
    (∀ e0 e1 e2, op 0 = Except.error e0 → op 1 = Except.error e1 →
      op 2 = Except.error e2 →
      (withRetry op 3).result = Except.error (some e2)) := by
  rcases h0 : op 0 with e0 | a0
  · rcases h1 : op 1 with e1 | a1
    · rcases h2 : op 2 with e2 | a2
      · have key : withRetry op 3 = ⟨Except.error (some e2), [1000, 2000, 3000], 3⟩ := by
          simp [withRetry, withRetryAux, h0, h1, h2]
        refine ⟨by simp [key], ?_, ?_⟩
        · rw [key]
          intro i h
          simp only [List.length_cons, List.length_nil] at h
          interval_cases i <;> rfl
        · intro f0 f1 f2 g0 g1 g2
          rw [key]
          injection g2 with hh
          rw [hh]
      · refine ⟨?_, ?_, ?_⟩
        · simp [withRetry, withRetryAux, h0, h1, h2]
        · have key : withRetry op 3 = ⟨Except.ok a2, [1000, 2000], 3⟩ := by
            simp [withRetry, withRetryAux, h0, h1, h2]
          rw [key]
          intro i h
          simp only [List.length_cons, List.length_nil] at h
          interval_cases i <;> rfl
        · intro f0 f1 f2 g0 g1 g2
          exact absurd g2 (by simp)
    · refine ⟨?_, ?_, ?_⟩
      · simp [withRetry, withRetryAux, h0, h1]
      · have key : withRetry op 3 = ⟨Except.ok a1, [1000], 2⟩ := by
          simp [withRetry, withRetryAux, h0, h1]
        rw [key]
        intro i h
        simp only [List.length_cons, List.length_nil] at h
        interval_cases i
        rfl
      · intro f0 f1 f2 g0 g1 g2
        exact absurd g1 (by simp)
  · refine ⟨?_, ?_, ?_⟩
    · simp [withRetry, withRetryAux, h0]
    · have key : withRetry op 3 = ⟨Except.ok a0, [], 1⟩ := by
        simp [withRetry, withRetryAux, h0]
      rw [key]
      intro i h
      simp only [List.length_nil] at h
      exact absurd h (Nat.not_lt_zero i)
    · intro f0 f1 f2 g0 g1 g2
      exact absurd g0 (by simp)

/-- Witness for C6: with an operation that always fails with "boom", the run
performs a first delay of 1000 ms and propagates the last error. -/
theorem withRetry_linear_backoff_witness :
    0 < (withRetry (fun _ => (Except.error "boom" : Except String Nat)) 3).delays.length ∧
    (withRetry (fun _ => (Except.error "boom" : Except String Nat)) 3).delays.get
        ⟨0, by decide⟩ = 1000 ∧
    (withRetry (fun _ => (Except.error "boom" : Except String Nat)) 3).result
        = Except.error (some "boom") :=
  ⟨by decide,
   (withRetry_linear_backoff (fun _ => Except.error "boom")).2.1 0 (by decide),
   (withRetry_linear_backoff (fun _ => Except.error "boom")).2.2 "boom" "boom" "boom"
     rfl rfl rfl⟩

/-- C8: an empty (or absent) account result makes the wrapped fetch operation
throw, so it is retried like a network error: when the first three responses
are all empty or absent, the whole fetch fails with the fetch-failure error
after exactly 3 attempts; when an attempt within the limit returns a
non-empty result, the fetch succeeds with it. -/
theorem empty_accounts_treated_as_failure (resp : Nat → Option (List DCAAccountType)) :
    ((∀ i, i < 3 → resp i = none ∨ resp i = some []) →
      (withRetry (fetchAccountsOp resp) 3).result
          = Except.error (some "No accounts returned") ∧
      (withRetry (fetchAccountsOp resp) 3).attempts = 3) ∧
    (∀ accounts, accounts ≠ [] → resp 0 = some [] → resp 1 = some [] →
      resp 2 = some accounts →
      (withRetry (fetchAccountsOp resp) 3).result = Except.ok accounts ∧
      (withRetry (fetchAccountsOp resp) 3).attempts = 3) := by
  constructor
  · intro h
    have e0 : fetchAccountsOp resp 0 = Except.error "No accounts returned" := by
      rcases h 0 (by norm_num) with h' | h' <;> simp [fetchAccountsOp, h']
    have e1 : fetchAccountsOp resp 1 = Except.error "No accounts returned" := by
      rcases h 1 (by norm_num) with h' | h' <;> simp [fetchAccountsOp, h']
    have e2 : fetchAccountsOp resp 2 = Except.error "No accounts returned" := by
      rcases h 2 (by norm_num) with h' | h' <;> simp [fetchAccountsOp, h']
    exact ⟨by simp [withRetry, withRetryAux, e0, e1, e2],
      by simp [withRetry, withRetryAux, e0, e1, e2]⟩
  · intro accounts hne h0 h1 h2
    have e0 : fetchAccountsOp resp 0 = Except.error "No accounts returned" := by
      simp [fetchAccountsOp, h0]
    have e1 : fetchAccountsOp resp 1 = Except.error "No accounts returned" := by
      simp [fetchAccountsOp, h1]
    have e2 : fetchAccountsOp resp 2 = Except.ok accounts := by
      simp [fetchAccountsOp, h2, List.length_eq_zero, hne]
    exact ⟨by simp [withRetry, withRetryAux, e0, e1, e2],
      by simp [withRetry, withRetryAux, e0, e1, e2]⟩

/-- Witness for C8: three empty responses exhaust the retries and fail; two
empty responses followed by a non-empty one succeed on the third attempt. -/
theorem empty_accounts_treated_as_failure_witness :
    (withRetry (fetchAccountsOp (fun _ => some [])) 3).result
        = Except.error (some "No accounts returned") ∧
    (withRetry (fetchAccountsOp
        (fun i => if i = 2 then some [sellAccountExample] else some [])) 3).result
        = Except.ok [sellAccountExample] :=
  ⟨((empty_accounts_treated_as_failure (fun _ => some [])).1
      (fun _ _ => Or.inr rfl)).1,
   ((empty_accounts_treated_as_failure
      (fun i => if i = 2 then some [sellAccountExample] else some [])).2
      [sellAccountExample] (by simp) rfl rfl rfl).1⟩

/-- Two boolean predicates that are never simultaneously true on the members
of a list count additively: the count of `p` plus the count of `q` is the
count of their disjunction. -/
theorem countP_add_eq_countP_or {α : Type} (p q : α → Bool) (l : List α)
    (h : ∀ a ∈ l, ¬(p a = true ∧ q a = true)) :
    l.countP p + l.countP q = l.countP (fun a => p a || q a) := by
  induction l with
  | nil => rfl
  | cons a t ih =>
    have ha := h a (List.mem_cons_self a t)
    have ht : ∀ x ∈ t, ¬(p x = true ∧ q x = true) :=
      fun x hx => h x (List.mem_cons_of_mem a hx)
    simp only [List.countP_cons]
    rw [← ih ht]
    cases hp : p a <;> cases hq : q a <;> simp_all <;> omega

/-- A raw account with input mint LOGOS and output mint CHAOS: it is counted
both as a LOGOS sell and as a CHAOS buy. -/
def crossAccountExample : DCAAccountType :=
  { publicKey := "CrossAcctPubkey1111111111111111111111111111"
    account :=
      { user := "UserPubkey111111111111111111111111111111111"
        inputMint := LOGOS_MINT
        outputMint := CHAOS_MINT
        idx := 0
        nextCycleAt := 1700000000
        inDeposited := 1000000
        inWithdrawn := 0
        outWithdrawn := 0
        inUsed := 0
        inAmountPerCycle := 1000000
        cycleFrequency := 60
        minOutAmount := none
        maxOutAmount := none }}

/-- C5 counterexample: for the single account `crossAccountExample` (input
mint LOGOS, output mint CHAOS), the sum of `buyOrders` and `sellOrders` over
both tracked tokens is 2 while only 1 raw account matches at least one
tracked token's mint, so the two quantities differ. -/
theorem orders_sum_counterexample :
    totalOrders (getDCAAccountsResult [crossAccountExample] 1 1 0).summary = 2 ∧
    [crossAccountExample].countP matchesTrackedMint = 1 ∧
    totalOrders (getDCAAccountsResult [crossAccountExample] 1 1 0).summary
      ≠ [crossAccountExample].countP matchesTrackedMint := by
  refine ⟨?_, ?_, ?_⟩ <;> decide

/-- C5 (amended): provided no raw account has both its input mint and its
output mint among the tracked mints, the sum of `buyOrders` and `sellOrders`
over all tracked tokens equals the number of raw accounts whose input-token
mint or output-token mint equals at least one tracked token's mint. -/
theorem orders_sum_counts_matched (allAccounts : List DCAAccountType)
    (logosPrice chaosPrice : ℚ) (now : Int)
    (h : ∀ a ∈ allAccounts,
      ¬((a.account.inputMint = LOGOS_MINT ∨ a.account.inputMint = CHAOS_MINT) ∧
        (a.account.outputMint = LOGOS_MINT ∨ a.account.outputMint = CHAOS_MINT))) :
    totalOrders (getDCAAccountsResult allAccounts logosPrice chaosPrice now).summary
      = allAccounts.countP matchesTrackedMint := by
  have hne : LOGOS_MINT ≠ CHAOS_MINT := by decide
  have hin : allAccounts.countP (fun a => decide (a.account.inputMint = LOGOS_MINT))
      + allAccounts.countP (fun a => decide (a.account.inputMint = CHAOS_MINT))
      = allAccounts.countP (fun a =>
          decide (a.account.inputMint = LOGOS_MINT) ||
          decide (a.account.inputMint = CHAOS_MINT)) := by
    refine countP_add_eq_countP_or _ _ _ ?_
    intro a _ hcon
    rcases hcon with ⟨h1, h2⟩
    simp only [decide_eq_true_eq] at h1 h2
    exact hne (h1 ▸ h2)
  have hout : allAccounts.countP (fun a => decide (a.account.outputMint = LOGOS_MINT))
      + allAccounts.countP (fun a => decide (a.account.outputMint = CHAOS_MINT))
      = allAccounts.countP (fun a =>
          decide (a.account.outputMint = LOGOS_MINT) ||
          decide (a.account.outputMint = CHAOS_MINT)) := by
    refine countP_add_eq_countP_or _ _ _ ?_
    intro a _ hcon
    rcases hcon with ⟨h1, h2⟩
    simp only [decide_eq_true_eq] at h1 h2
    exact hne (h1 ▸ h2)
  have hio : allAccounts.countP (fun a =>
        decide (a.account.inputMint = LOGOS_MINT) ||
        decide (a.account.inputMint = CHAOS_MINT))
      + allAccounts.countP (fun a =>
        decide (a.account.outputMint = LOGOS_MINT) ||
        decide (a.account.outputMint = CHAOS_MINT))
      = allAccounts.countP matchesTrackedMint := by
    have hx := countP_add_eq_countP_or
      (fun a => decide (a.account.inputMint = LOGOS_MINT) ||
        decide (a.account.inputMint = CHAOS_MINT))
      (fun a => decide (a.account.outputMint = LOGOS_MINT) ||
        decide (a.account.outputMint = CHAOS_MINT))
      allAccounts ?_
    · rw [hx]
      congr 1
      funext a
      simp [matchesTrackedMint, Bool.decide_or]
    · intro a ha hcon
      rcases hcon with ⟨h1, h2⟩
      simp only [Bool.or_eq_true, decide_eq_true_eq] at h1 h2
      exact h a ha ⟨h1, h2⟩
  have key : totalOrders (getDCAAccountsResult allAccounts logosPrice chaosPrice now).summary
      = allAccounts.countP (fun a => decide (a.account.outputMint = LOGOS_MINT))
      + allAccounts.countP (fun a => decide (a.account.inputMint = LOGOS_MINT))
      + allAccounts.countP (fun a => decide (a.account.outputMint = CHAOS_MINT))
      + allAccounts.countP (fun a => decide (a.account.inputMint = CHAOS_MINT)) := by
    simp [totalOrders, getDCAAccountsResult, calculateSummaryFromRawAccounts, categorize,
      List.countP_eq_length_filter]
  omega

/-- Witness for the amended C5: `sellAccountExample` has a tracked input mint
and an untracked output mint, so the hypothesis holds, and both sides of the
amended equation are 1. -/
theorem orders_sum_counts_matched_witness :
    totalOrders (getDCAAccountsResult [sellAccountExample] 1 1 0).summary
      = [sellAccountExample].countP matchesTrackedMint :=
  orders_sum_counts_matched [sellAccountExample] 1 1 0 (by decide)

/-- C7: a failed or empty price response yields price 0 rather than an error
(`getCurrentPrice` is total), and with that token's price 0 the aggregation
still produces a result in which the token's `sellVolumeUSDC` is 0 and every
published SELL position of that token has `currentPrice` 0, while the
BUY-side figures (`buyOrders`, `buyVolume`, `buyVolumeUSDC`) coincide with
the ones computed at any other price `x` for that token. -/
theorem price_failure_degrades_to_zero (mint : String)
    (response : Except Unit (Option ℚ))
    (hresp : response = Except.error () ∨ response = Except.ok none)
    (allAccounts : List DCAAccountType) (T : Token) (other x : ℚ) (now : Int) :
    getCurrentPrice mint response = { price := 0, mint := mint } ∧
    ((getDCAAccountsResult allAccounts
        (if T = Token.LOGOS then 0 else other)
        (if T = Token.CHAOS then 0 else other) now).summary.get T).sellVolumeUSDC = 0 ∧
    (∀ p ∈ (getDCAAccountsResult allAccounts
        (if T = Token.LOGOS then 0 else other)
        (if T = Token.CHAOS then 0 else other) now).positions,
      p.token = T.symbol → p.type = Direction.SELL → p.currentPrice = 0) ∧
    ((getDCAAccountsResult allAccounts
        (if T = Token.LOGOS then 0 else other)
        (if T = Token.CHAOS then 0 else other) now).summary.get T).buyOrders
      = ((getDCAAccountsResult allAccounts
        (if T = Token.LOGOS then x else other)
        (if T = Token.CHAOS then x else other) now).summary.get T).buyOrders ∧
    ((getDCAAccountsResult allAccounts
        (if T = Token.LOGOS then 0 else other)
        (if T = Token.CHAOS then 0 else other) now).summary.get T).buyVolume
      = ((getDCAAccountsResult allAccounts
        (if T = Token.LOGOS then x else other)
        (if T = Token.CHAOS then x else other) now).summary.get T).buyVolume ∧
    ((getDCAAccountsResult allAccounts
        (if T = Token.LOGOS then 0 else other)
        (if T = Token.CHAOS then 0 else other) now).summary.get T).buyVolumeUSDC
      = ((getDCAAccountsResult allAccounts
        (if T = Token.LOGOS then x else other)
        (if T = Token.CHAOS then x else other) now).summary.get T).buyVolumeUSDC := by
  refine ⟨?_, ?_, ?_, ?_, ?_, ?_⟩
  · rcases hresp with h | h <;> subst h <;> rfl
  · cases T <;>
      simp [getDCAAccountsResult, calculateSummaryFromRawAccounts, SummaryRecord.get,
        foldl_add_eq_add_sum, sum_map_zero, jsRound] <;>
      norm_num
  · cases T <;>
    · intro p hp h1 h2
      simp only [getDCAAccountsResult, List.map_append, List.mem_append, List.mem_map,
        List.map_map] at hp
      rcases hp with ((⟨a, _, rfl⟩ | ⟨a, _, rfl⟩) | ⟨a, _, rfl⟩) | ⟨a, _, rfl⟩ <;>
        simp_all [convertDCAAccount, Function.comp, Token.symbol]
  · cases T <;> rfl
  · cases T <;> rfl
  · cases T <;> rfl

/-- Witness for C7: a throwing price fetch for LOGOS yields the zero price
result. -/
theorem price_failure_degrades_to_zero_witness :
    getCurrentPrice LOGOS_MINT (Except.error ())
      = { price := 0, mint := LOGOS_MINT } :=
  (price_failure_degrades_to_zero LOGOS_MINT (Except.error ()) (Or.inl rfl)
    [sellAccountExample] Token.LOGOS 1 5 0).1
